import Mathlib

/-! # Verification of the MCP chatbot agent orchestration engine

Shallow embedding of `backend.py`: the multi-provider tool registry
(`connect_to_servers` / `connect_to_server`), the tool invoker
(`_call_tool_text`), the tool-call loop with its anti-churn guard
(`process_query`), and the session-bridge loop (`run_chatbot`).

External effects (MCP server connections, the Anthropic model API) are
modelled by outcome parameters: each point where the Python code performs
an effectful call that can either return a value or raise takes the
outcome of that call as an explicit argument, and every `except`/raise
path of the source is represented by the corresponding constructor. -/

namespace MedicalChat

/-! ## Tool registry (`connect_to_servers`, `connect_to_server`) -/

/-- Mirrors the `ToolDefinition` TypedDict cached in `available_tools`.
The JSON `input_schema` is opaque to the engine and modelled as a string. -/
structure ToolDefinition where
  name : String
  description : String
  input_schema : String
  deriving DecidableEq

/-- A tool as reported by a provider's `list_tools()` call
(`tool.name`, `tool.description`, `tool.inputSchema`). -/
structure ServerTool where
  name : String
  description : String
  inputSchema : String
  deriving DecidableEq

/-- The registry fields of `MCP_ChatBot`: `self.sessions` (session identities),
`self.available_tools`, and the dict `self.tool_to_session`. -/
structure RegistryState where
  sessions : List Nat
  available_tools : List ToolDefinition
  tool_to_session : String → Option Nat

/-- Outcome of one provider connection attempt: `stdio_client` +
`ClientSession` + `initialize` + `list_tools` either all succeed, yielding a
session identity and the listed tools, or some step raises. -/
inductive ConnectOutcome where
  | ok (sessionId : Nat) (tools : List ServerTool)
  | fail (err : String)
  deriving DecidableEq

/-- Outcome of loading `server_config.json`: either the parsed provider list
(each entry paired with what connecting to it would do), or the load raises. -/
inductive ConfigOutcome where
  | ok (servers : List (String × ConnectOutcome))
  | fail (err : String)

/-- Body of the `for tool in tools` loop in `connect_to_server`:
`self.tool_to_session[tool.name] = session` (dict overwrite) followed by
`self.available_tools.append({...})` (list append). -/
def registerTool (sid : Nat) (t : ServerTool) (st : RegistryState) : RegistryState :=
  { st with
    tool_to_session := fun n => if n = t.name then some sid else st.tool_to_session n,
    available_tools := st.available_tools ++ [⟨t.name, t.description, t.inputSchema⟩] }

/-- `connect_to_server`: on success appends the session and registers every
listed tool; any failure raises (there is no `try`/`except` in this method),
modelled by returning the untouched state together with the raised error. -/
def connect_to_server (st : RegistryState) : ConnectOutcome → RegistryState × Option String
  | ConnectOutcome.fail e => (st, some e)
  | ConnectOutcome.ok sid tools =>
      (tools.foldl (fun s t => registerTool sid t s)
        { st with sessions := st.sessions ++ [sid] }, none)

/-- The `for name, config in servers.items()` loop of `connect_to_servers`:
each provider is connected in turn; an exception from `connect_to_server`
propagates immediately, keeping the state mutated so far. -/
def connectAll (st : RegistryState) : List (String × ConnectOutcome) → RegistryState × Option String
  | [] => (st, none)
  | (_, oc) :: rest =>
      match connect_to_server st oc with
      | (st', none) => connectAll st' rest
      | (st', some e) => (st', some e)

/-- `connect_to_servers`: opening/parsing `server_config.json` may raise
(fatal); otherwise every configured provider is connected in order. -/
def connect_to_servers (st : RegistryState) : ConfigOutcome → RegistryState × Option String
  | ConfigOutcome.fail e => (st, some e)
  | ConfigOutcome.ok servers => connectAll st servers

/-! ## Tool invoker (`_call_tool_text`) -/

/-- One element of `result.content`: a text-typed segment carries its
`text` attribute; any other segment carries the string the fallback
`json.dumps`/`str` serialization produces for it. -/
inductive ContentSeg where
  | text (s : String)
  | other (serialized : String)
  deriving DecidableEq

/-- The string the `for c in result.content` loop appends for a segment. -/
def segPart : ContentSeg → String
  | ContentSeg.text s => s
  | ContentSeg.other s => s

/-- Outcome of `session.call_tool`: a result whose `content` list is given,
or a raised exception with its string rendering. -/
inductive ToolOutcome where
  | ok (content : List ContentSeg)
  | err (detail : String)
  deriving DecidableEq

/-- Python's `sep.join(l)`. -/
def joinSep (sep : String) : List String → String
  | [] => ""
  | [p] => p
  | p :: rest => p ++ sep ++ joinSep sep rest

/-- `_call_tool_text`: unknown names return the inline error string; a raised
`call_tool` is caught and rendered inline; otherwise the segments are
flattened, empty parts dropped (`[p for p in parts if p]`), joined with
newlines, and an empty join becomes the placeholder. Every branch returns a
string: the invoker never raises past its boundary. -/
def callToolText (st : RegistryState) (tool_name : String) (outcome : ToolOutcome) : String :=
  match st.tool_to_session tool_name with
  | none => "[tool error] Unknown tool: " ++ tool_name
  | some _ =>
      match outcome with
      | ToolOutcome.err d => "[tool error] " ++ tool_name ++ ": " ++ d
      | ToolOutcome.ok content =>
          let parts := content.map segPart
          let joined := joinSep "\n" (parts.filter (fun p => p != ""))
          if joined = "" then "(empty tool result)" else joined

/-! ## Tool-call loop (`process_query`) -/

/-- One `tool_use` request extracted from the model reply
(`{'id': item.id, 'name': item.name, 'input': item.input}`);
the JSON arguments are opaque and modelled as a string. -/
structure ToolCall where
  id : String
  name : String
  input : String
  deriving DecidableEq

/-- One item of `response.content`: the loop inspects `item.type` and
handles `'text'` and `'tool_use'`, ignoring anything else. -/
inductive ContentItem where
  | text (s : String)
  | toolUse (id : String) (name : String) (input : String)
  | otherContent (tag : String)
  deriving DecidableEq

/-- A model reply (`response.content`). -/
structure ModelReply where
  content : List ContentItem
  deriving DecidableEq

/-- Outcome of one `self.anthropic.messages.create(...)` call: a reply, or a
raised API error (network/auth/rate limit) with its string rendering. -/
inductive OracleStep where
  | reply (r : ModelReply)
  | fail (detail : String)
  deriving DecidableEq

/-- One `tool_result` block. The source sets `'is_error': True` only on
suppressed blocks; its absence on real results is modelled as `false`. -/
structure ToolResultBlock where
  tool_use_id : String
  content : String
  is_error : Bool
  deriving DecidableEq

/-- One entry of `self.messages`: a user turn with string content, a user
turn carrying `tool_result` blocks, an assistant turn carrying the raw
`response.content`, or an assistant turn with final string content. -/
inductive Turn where
  | user (s : String)
  | userBlocks (blocks : List ToolResultBlock)
  | assistantBlocks (content : List ContentItem)
  | assistant (s : String)
  deriving DecidableEq

/-- `free_text_chunks`: the `item.text` of every text-typed item, in order. -/
def freeTextChunks (content : List ContentItem) : List String :=
  content.filterMap fun item =>
    match item with
    | ContentItem.text s => some s
    | _ => none

/-- `tool_calls`: every `tool_use` item, in order. -/
def toolCallsOf (content : List ContentItem) : List ToolCall :=
  content.filterMap fun item =>
    match item with
    | ContentItem.toolUse i n a => some ⟨i, n, a⟩
    | _ => none

/-- `"".join(chunks).strip() or "(empty response)"`. -/
def finalizeText (chunks : List String) : String :=
  let t := (String.join chunks).trim
  if t = "" then "(empty response)" else t

/-- `MAX_TOOL_LOOPS = 6` (the spec's `MAX_ROUNDS`). -/
def MAX_TOOL_LOOPS : Nat := 6

/-- The fixed guidance placed in a suppressed `tool_result` block. -/
def suppressText : String :=
  "[anti-churn] Repeated search_drugs suppressed. Please either call get_drug_properties or summarize results."

/-- The steering turn appended after a round in which suppression occurred. -/
def steerText : String :=
  "You already performed multiple searches. Do not call search_drugs again. If details are needed, call get_drug_properties; otherwise, write the final answer now."

/-- The directive appended on the forced-summary path. -/
def forcedDirective : String :=
  "Stop calling tools. Summarize the findings from the tool results above in clear prose."

/-- The per-call condition of the source:
`t_name == 'search_drugs' and seen_tools.get('search_drugs', 0) > 2`,
evaluated against the counter state after this round's increments. -/
def shouldSuppress (seen1 : String → Nat) (c : ToolCall) : Bool :=
  c.name == "search_drugs" && decide (2 < seen1 "search_drugs")

/-- `for call in tool_calls: seen_tools[call['name']] += 1`. -/
def bumpSeen (seen : String → Nat) (calls : List ToolCall) : String → Nat :=
  calls.foldl (fun s c => fun n => if n = c.name then s n + 1 else s n) seen

/-- The `for call in tool_calls` result-building loop: produces the
`tool_result_blocks`, the list of (name, arguments) pairs that actually
reached `_call_tool_text` (in order), and the `suppress_msg_needed` flag. -/
def buildBlocks (invoke : String → String → String) (seen1 : String → Nat) :
    List ToolCall → List ToolResultBlock × List (String × String) × Bool
  | [] => ([], [], false)
  | c :: rest =>
      let tl := buildBlocks invoke seen1 rest
      if shouldSuppress seen1 c then
        (⟨c.id, suppressText, true⟩ :: tl.1, tl.2.1, true)
      else
        (⟨c.id, invoke c.name c.input, false⟩ :: tl.1, (c.name, c.input) :: tl.2.1, tl.2.2)

/-- Result of one `process_query` call: the final `self.messages`, the
returned text (or the detail of an exception that propagated out), the real
tool invocations performed, the number of model requests issued, whether the
forced-summary path ran, and whether the fuel of the embedding ran out
(proved unreachable from the canonical entry). -/
structure QueryOutcome where
  messages : List Turn
  result : Except String String
  invocations : List (String × String)
  modelRequests : Nat
  forced : Bool
  fuelOut : Bool

/-- The `while True` loop of `process_query`. `loopIdx` is the value of
`loop_idx` before the `loop_idx += 1` at the top of the iteration; `fuel`
bounds the recursion and is chosen so that exhaustion is unreachable. -/
def runLoop (oracle : Nat → OracleStep) (invoke : String → String → String) :
    Nat → Nat → (String → Nat) → List Turn → List (String × String) → QueryOutcome
  | 0, loopIdx, _, msgs, invs =>
      { messages := msgs, result := Except.error "", invocations := invs,
        modelRequests := loopIdx, forced := false, fuelOut := true }
  | fuel + 1, loopIdx, seen, msgs, invs =>
      match oracle (loopIdx + 1) with
      | OracleStep.fail d =>
          { messages := msgs, result := Except.error d, invocations := invs,
            modelRequests := loopIdx + 1, forced := false, fuelOut := false }
      | OracleStep.reply resp =>
          let calls := toolCallsOf resp.content
          if calls = [] then
            let ft := finalizeText (freeTextChunks resp.content)
            { messages := msgs ++ [Turn.assistant ft], result := Except.ok ft,
              invocations := invs, modelRequests := loopIdx + 1,
              forced := false, fuelOut := false }
          else
            let seen1 := bumpSeen seen calls
            let blocks := (buildBlocks invoke seen1 calls).1
            let delta := (buildBlocks invoke seen1 calls).2.1
            let flag := (buildBlocks invoke seen1 calls).2.2
            let msgs3 := (msgs ++ [Turn.assistantBlocks resp.content, Turn.userBlocks blocks])
                ++ (if flag then [Turn.user steerText] else [])
            let invs1 := invs ++ delta
            if MAX_TOOL_LOOPS ≤ loopIdx + 1 then
              let msgs4 := msgs3 ++ [Turn.user forcedDirective]
              match oracle (loopIdx + 2) with
              | OracleStep.fail d =>
                  { messages := msgs4, result := Except.error d, invocations := invs1,
                    modelRequests := loopIdx + 2, forced := true, fuelOut := false }
              | OracleStep.reply r2 =>
                  let ft := finalizeText (freeTextChunks r2.content)
                  { messages := msgs4 ++ [Turn.assistant ft], result := Except.ok ft,
                    invocations := invs1, modelRequests := loopIdx + 2,
                    forced := true, fuelOut := false }
            else
              runLoop oracle invoke fuel (loopIdx + 1) seen1 msgs3 invs1

/-- `process_query`: appends the user turn, creates a fresh
`seen_tools = Counter()` (the repetition counter is reset here, per query),
and runs the loop. The `oracle` argument gives, for each 1-based request
index, what that `messages.create` call does; `invoke` abstracts
`_call_tool_text` on the registry in scope. -/
def process_query (oracle : Nat → OracleStep) (invoke : String → String → String)
    (msgs : List Turn) (query : String) : QueryOutcome :=
  runLoop oracle invoke MAX_TOOL_LOOPS 0 (fun _ => 0) (msgs ++ [Turn.user query]) []

/-! ## Session bridge (`run_chatbot`) -/

/-- What `run_chatbot` puts on `out_q` for one processed query. -/
def responseOf (o : QueryOutcome) : String :=
  match o.result with
  | Except.ok t => t
  | Except.error d => "[ERROR]: " ++ d

/-- `isinstance(query, str) and query.lower() == "quit"` (inbound items are
strings in this model; lowercasing is per character, which agrees with
Python's `str.lower` on ASCII input). -/
def isQuit (q : String) : Bool :=
  String.mk (q.data.map Char.toLower) = "quit"

/-- Observable outcome of the `run_chatbot` loop on a finite inbound
backlog: the strings put on `out_q` in order, the conversation state after
the backlog, and whether `self.exit_stack.aclose()` ran — i.e. whether the
loop exited via the `"quit"` break so the `finally` released every provider
connection. An exhausted backlog means the loop is still blocked on
`in_q.get`, so no connection has been released. -/
structure EngineResult where
  outputs : List String
  messages : List Turn
  closedConnections : Bool
  deriving DecidableEq

/-- The `while True` read-process-reply loop of `run_chatbot`. `oracles q`
gives the model-oracle behaviour while processing the `q`-th query;
exceptions from `process_query` are caught and rendered as
`"[ERROR]: {e}"`, and `self.messages` keeps whatever `process_query`
appended before raising. -/
def runEngine (oracles : Nat → Nat → OracleStep) (invoke : String → String → String) :
    Nat → List Turn → List String → EngineResult
  | _, msgs, [] => { outputs := [], messages := msgs, closedConnections := false }
  | qIdx, msgs, q :: rest =>
      if isQuit q then
        { outputs := ["Exiting chatbot..."], messages := msgs, closedConnections := true }
      else
        let o := process_query (oracles qIdx) invoke msgs q
        let r := runEngine oracles invoke (qIdx + 1) o.messages rest
        { outputs := responseOf o :: r.outputs, messages := r.messages,
          closedConnections := r.closedConnections }

/-! ## Protocol-ordering predicate (for the turn-ordering invariant) -/

/-- The `tool_use` ids requested by an assistant content sequence, in order. -/
def requestIds (content : List ContentItem) : List String :=
  (toolCallsOf content).map fun c => c.id

/-- The `tool_use_id`s of a `tool_result` batch, in order. -/
def resultIds (blocks : List ToolResultBlock) : List String :=
  blocks.map fun b => b.tool_use_id

/-- Whether a turn is the single `tool_result` batch answering exactly the
requested ids, in request order. -/
def pairOk (content : List ContentItem) : Turn → Bool
  | Turn.userBlocks bs => decide (resultIds bs = requestIds content)
  | _ => false

/-- The model-facing protocol invariant on a conversation: every assistant
turn containing at least one tool request is immediately followed by a
single `tool_result` batch turn whose ids are exactly the requested ids in
request order (so in particular no steering turn is interleaved). -/
def protocolOk : List Turn → Bool
  | [] => true
  | [Turn.assistantBlocks c] => decide (requestIds c = [])
  | Turn.assistantBlocks c :: next :: rest =>
      (if requestIds c = [] then true else pairOk c next) && protocolOk (next :: rest)
  | _ :: rest => protocolOk rest

/-! ## Concrete inputs used by witnesses and counterexamples -/

/-- The empty registry state (`MCP_ChatBot.__init__`). -/
def st0 : RegistryState :=
  { sessions := [], available_tools := [], tool_to_session := fun _ => none }

/-- A registry holding one tool `"t"` owned by session `1`. -/
def st1 : RegistryState :=
  { sessions := [1], available_tools := [⟨"t", "d", "s"⟩],
    tool_to_session := fun n => if n = "t" then some 1 else none }

/-- An oracle that requests the tool `get_drug_properties` on each of the
first three rounds and then finalizes with text. -/
def oracleRepeatOther : Nat → OracleStep
  | 1 => OracleStep.reply ⟨[ContentItem.toolUse "id1" "get_drug_properties" "a"]⟩
  | 2 => OracleStep.reply ⟨[ContentItem.toolUse "id2" "get_drug_properties" "a"]⟩
  | 3 => OracleStep.reply ⟨[ContentItem.toolUse "id3" "get_drug_properties" "a"]⟩
  | _ => OracleStep.reply ⟨[ContentItem.text "done"]⟩

/-- An oracle that always answers with plain text. -/
def oracleTexty : Nat → OracleStep
  | _ => OracleStep.reply ⟨[ContentItem.text "hi"]⟩

/-- An oracle whose every request raises. -/
def oracleBoom : Nat → OracleStep
  | _ => OracleStep.fail "boom"

/-- A per-query oracle family: the first query's oracle raises, later
queries get plain text answers. -/
def oraclesFailFirst : Nat → Nat → OracleStep
  | 0 => oracleBoom
  | _ => oracleTexty

/-- A trivial invoker used for concrete evaluations. -/
def invoke0 : String → String → String :=
  fun _ _ => "r"

/-- An oracle that requests `search_drugs` on every round, driving the loop
through suppression and into the forced-summary path. -/
def oracleChurn : Nat → OracleStep
  | _ => OracleStep.reply ⟨[ContentItem.toolUse "i" "search_drugs" "a"]⟩

/-- The provider configuration used to exhibit a mid-registration failure:
provider `a` succeeds, provider `b` raises, provider `c` would succeed. -/
def cfgBoom : ConfigOutcome :=
  ConfigOutcome.ok
    [("a", ConnectOutcome.ok 1 [⟨"t1", "d", "s"⟩]),
     ("b", ConnectOutcome.fail "boom"),
     ("c", ConnectOutcome.ok 2 [⟨"t2", "d", "s"⟩])]

/-- A successful connection outcome for one provider exposing tool `"t"`. -/
def ocT : ConnectOutcome :=
  ConnectOutcome.ok 1 [⟨"t", "d", "s"⟩]

/-! ## General lemmas -/

theorem append_left_ne_empty (s t : String) (h : s ≠ "") : s ++ t ≠ "" := by
  intro hc
  apply h
  apply String.ext
  have hd := congrArg String.data hc
  rw [String.data_append] at hd
  have h1 : s.data = [] := (List.append_eq_nil.mp (by simpa using hd)).1
  simpa using h1

theorem joinSep_ne_empty :
    ∀ (l : List String), l ≠ [] → (∀ p ∈ l, p ≠ "") → joinSep "\n" l ≠ ""
  | [], h, _ => absurd rfl h
  | [p], _, hp => by simpa [joinSep] using hp p (by simp)
  | p :: q :: rest, _, hp => by
      have hps : p ≠ "" := hp p (by simp)
      show p ++ "\n" ++ joinSep "\n" (q :: rest) ≠ ""
      exact append_left_ne_empty _ _ (append_left_ne_empty _ _ hps)

theorem filter_self_of_ne_empty {l : List String} (h : ∀ p ∈ l, p ≠ "") :
    l.filter (fun p => p != "") = l :=
  List.filter_eq_self.mpr (by intro a ha; simpa using h a ha)

/-! ## C6 — unknown tool name -/

/-- C6 counterexample: for a name absent from the registry, `_call_tool_text`
returns `"[tool error] Unknown tool: foo"`, which is not the string
`"Unknown tool: foo"` the claim specifies. -/
theorem unknown_tool_string_cex :
    callToolText st0 "foo" (ToolOutcome.ok []) = "[tool error] Unknown tool: foo"
    ∧ callToolText st0 "foo" (ToolOutcome.ok []) ≠ "Unknown tool: foo" := by
  constructor
  · rfl
  · decide

/-- C6 (amended): for every invocation whose tool name is absent from the
registry, the Tool Invoker returns the inline error string
`"[tool error] Unknown tool: {name}"` rather than raising or failing the
round (every branch of the embedding returns a string). -/
theorem unknown_tool_error_string :
    ∀ (st : RegistryState) (tool_name : String) (outcome : ToolOutcome),
      st.tool_to_session tool_name = none →
      callToolText st tool_name outcome = "[tool error] Unknown tool: " ++ tool_name := by
  intro st tool_name outcome h
  simp [callToolText, h]

/-- C6 witness: the amended theorem applied to the empty registry. -/
theorem unknown_tool_error_string_inst :
    callToolText st0 "foo" (ToolOutcome.ok []) = "[tool error] Unknown tool: " ++ "foo" :=
  unknown_tool_error_string st0 "foo" (ToolOutcome.ok []) rfl

/-! ## C7 — invoker flattening contract -/

/-- C7: the Tool Invoker never raises past its boundary (every case of the
embedding, including the caught `call_tool` exception, returns a string).
For a registered name: a provider failure yields
`"[tool error] {name}: {detail}"`; a result all of whose flattened segments
are empty yields the placeholder `"(empty tool result)"`; a nonempty result
with nonempty segments (text segments contributing their text, non-text
segments their best-effort serialization) yields the segments joined with
newline separators. -/
theorem invoker_flattening_contract :
    ∀ (st : RegistryState) (tool_name : String) (sid : Nat),
      st.tool_to_session tool_name = some sid →
      (∀ d, callToolText st tool_name (ToolOutcome.err d)
          = "[tool error] " ++ tool_name ++ ": " ++ d)
      ∧ (∀ segs : List ContentSeg, (segs.map segPart).filter (fun p => p != "") = [] →
          callToolText st tool_name (ToolOutcome.ok segs) = "(empty tool result)")
      ∧ (∀ segs : List ContentSeg, segs ≠ [] → (∀ p ∈ segs.map segPart, p ≠ "") →
          callToolText st tool_name (ToolOutcome.ok segs)
            = joinSep "\n" (segs.map segPart)) := by
  intro st tool_name sid h
  refine ⟨fun d => by simp [callToolText, h], fun segs hf => ?_, fun segs hne hp => ?_⟩
  · simp [callToolText, h, hf, joinSep]
  · have h1 : (segs.map segPart).filter (fun p => p != "") = segs.map segPart :=
      filter_self_of_ne_empty hp
    have h2 : joinSep "\n" (segs.map segPart) ≠ "" :=
      joinSep_ne_empty _ (by simpa using hne) hp
    simp [callToolText, h, h1, h2]

/-- C7 witness: the contract applied to the one-tool registry `st1`. -/
theorem invoker_flattening_contract_inst :
    callToolText st1 "t" (ToolOutcome.err "nope") = "[tool error] " ++ "t" ++ ": " ++ "nope"
    ∧ callToolText st1 "t" (ToolOutcome.ok [ContentSeg.text ""]) = "(empty tool result)"
    ∧ callToolText st1 "t" (ToolOutcome.ok [ContentSeg.text "a", ContentSeg.other "b"])
        = joinSep "\n" ([ContentSeg.text "a", ContentSeg.other "b"].map segPart) :=
  ⟨(invoker_flattening_contract st1 "t" 1 rfl).1 "nope",
   (invoker_flattening_contract st1 "t" 1 rfl).2.1 [ContentSeg.text ""] (by decide),
   (invoker_flattening_contract st1 "t" 1 rfl).2.2
     [ContentSeg.text "a", ContentSeg.other "b"] (by decide) (by decide)⟩

/-! ## C4 — provider registration failure is fatal -/

/-- C4 counterexample: with provider `b` failing mid-registration, the
exception propagates out of `connect_to_servers` (error `"boom"`), and the
later provider `c` is never registered — contradicting the claim that the
registry continues with the remaining providers. -/
theorem provider_failure_is_fatal_cex :
    (connect_to_servers st0 cfgBoom).2 = some "boom"
    ∧ ((connect_to_servers st0 cfgBoom).1).tool_to_session "t2" = none
    ∧ ((connect_to_servers st0 cfgBoom).1).tool_to_session "t1" = some 1 := by
  refine ⟨rfl, ?_, ?_⟩ <;> decide

/-- The `connect_to_servers` loop up to the first failing provider: all
earlier providers register, and the failure then propagates with the
remaining entries untouched. -/
theorem connectAll_append_fail :
    ∀ (pre : List (String × ConnectOutcome)) (st : RegistryState) (n e : String)
      (post : List (String × ConnectOutcome)),
      (∀ p ∈ pre, ∃ sid tools, p.2 = ConnectOutcome.ok sid tools) →
      connectAll st (pre ++ (n, ConnectOutcome.fail e) :: post)
        = ((connectAll st pre).1, some e)
  | [], _, _, _, _, _ => rfl
  | (m, oc) :: pre', st, n, e, post, h => by
      obtain ⟨sid, tools, hoc⟩ := h (m, oc) (by simp)
      simp only at hoc
      subst hoc
      show connectAll _ (pre' ++ (n, ConnectOutcome.fail e) :: post) = _
      rw [connectAll_append_fail pre' _ n e post (fun p hp => h p (by simp [hp]))]
      rfl

/-- C4 (amended): a provider initialization failure is fatal for the whole
registration pass, exactly like a config-load failure: `connect_to_servers`
has no per-provider catch, so the first failing provider's exception
propagates, earlier providers keep their tools, and the remaining providers
are never registered. -/
theorem provider_failure_aborts_registration :
    ∀ (st : RegistryState) (pre : List (String × ConnectOutcome)) (n e : String)
      (post : List (String × ConnectOutcome)),
      (∀ p ∈ pre, ∃ sid tools, p.2 = ConnectOutcome.ok sid tools) →
      connect_to_servers st (ConfigOutcome.ok (pre ++ (n, ConnectOutcome.fail e) :: post))
          = ((connectAll st pre).1, some e)
      ∧ connect_to_servers st (ConfigOutcome.fail e) = (st, some e) :=
  fun st pre n e post h => ⟨connectAll_append_fail pre st n e post h, rfl⟩

/-- C4 witness: the amended theorem applied to the configuration `cfgBoom`. -/
theorem provider_failure_aborts_registration_inst :
    connect_to_servers st0 (ConfigOutcome.ok
        ([("a", ConnectOutcome.ok 1 [⟨"t1", "d", "s"⟩])]
          ++ ("b", ConnectOutcome.fail "boom")
            :: [("c", ConnectOutcome.ok 2 [⟨"t2", "d", "s"⟩])]))
        = ((connectAll st0 [("a", ConnectOutcome.ok 1 [⟨"t1", "d", "s"⟩])]).1, some "boom")
    ∧ connect_to_servers st0 (ConfigOutcome.fail "boom") = (st0, some "boom") :=
  provider_failure_aborts_registration st0
    [("a", ConnectOutcome.ok 1 [⟨"t1", "d", "s"⟩])] "b" "boom"
    [("c", ConnectOutcome.ok 2 [⟨"t2", "d", "s"⟩])]
    (by
      intro p hp
      simp only [List.mem_singleton] at hp
      exact ⟨1, [⟨"t1", "d", "s"⟩], by simp [hp]⟩)

/-! ## C5 — duplicate-name override and (non-)idempotence -/

theorem regFold_available :
    ∀ (tools : List ServerTool) (st : RegistryState) (sid : Nat),
      (tools.foldl (fun s t => registerTool sid t s) st).available_tools
        = st.available_tools
            ++ tools.map (fun t => (⟨t.name, t.description, t.inputSchema⟩ : ToolDefinition))
  | [], st, sid => by simp
  | t :: rest, st, sid => by
      rw [List.foldl_cons, regFold_available rest _ sid]
      simp [registerTool]

theorem regFold_sessions :
    ∀ (tools : List ServerTool) (st : RegistryState) (sid : Nat),
      (tools.foldl (fun s t => registerTool sid t s) st).sessions = st.sessions
  | [], _, _ => rfl
  | t :: rest, st, sid => by
      rw [List.foldl_cons, regFold_sessions rest _ sid]
      rfl

theorem regFold_tts :
    ∀ (tools : List ServerTool) (st : RegistryState) (sid : Nat) (n : String),
      (tools.foldl (fun s t => registerTool sid t s) st).tool_to_session n
        = if n ∈ tools.map (fun t => t.name) then some sid else st.tool_to_session n
  | [], _, _, _ => by simp
  | t :: rest, st, sid, n => by
      rw [List.foldl_cons, regFold_tts rest _ sid n]
      by_cases h1 : n ∈ rest.map (fun t => t.name)
      · simp [h1]
      · by_cases h2 : n = t.name
        · simp [h1, h2, registerTool]
        · simp [h1, h2, registerTool]

/-- C5 counterexample: registering the same provider outcome twice appends a
second copy of the tool descriptor and of the session, so registration is
not idempotent: the registry entries are duplicated. -/
theorem reregistration_duplicates_cex :
    ((connect_to_server (connect_to_server st0 ocT).1 ocT).1).available_tools
        = [⟨"t", "d", "s"⟩, ⟨"t", "d", "s"⟩]
    ∧ ((connect_to_server (connect_to_server st0 ocT).1 ocT).1).sessions = [1, 1] := by
  constructor <;> rfl

/-- C5 (amended): the name-to-provider mapping is last-write-wins — a later
provider registering an already-present tool name silently overrides the
mapping to the later provider, and names not listed are untouched — but
registration is not idempotent: every `connect_to_server` call appends its
session and one descriptor per listed tool to the registry lists, so a
repeated registration duplicates those entries. -/
theorem registration_last_write_wins :
    ∀ (st : RegistryState) (sid : Nat) (tools : List ServerTool),
      ((connect_to_server st (ConnectOutcome.ok sid tools)).1).available_tools
          = st.available_tools
              ++ tools.map (fun t => (⟨t.name, t.description, t.inputSchema⟩ : ToolDefinition))
      ∧ ((connect_to_server st (ConnectOutcome.ok sid tools)).1).sessions
          = st.sessions ++ [sid]
      ∧ (∀ n, n ∈ tools.map (fun t => t.name) →
          ((connect_to_server st (ConnectOutcome.ok sid tools)).1).tool_to_session n
            = some sid)
      ∧ (∀ n, n ∉ tools.map (fun t => t.name) →
          ((connect_to_server st (ConnectOutcome.ok sid tools)).1).tool_to_session n
            = st.tool_to_session n)
      ∧ (connect_to_server st (ConnectOutcome.ok sid tools)).2 = none := by
  intro st sid tools
  have heq : (connect_to_server st (ConnectOutcome.ok sid tools)).1
      = tools.foldl (fun s t => registerTool sid t s)
          { st with sessions := st.sessions ++ [sid] } := rfl
  refine ⟨?_, ?_, fun n hn => ?_, fun n hn => ?_, rfl⟩
  · rw [heq, regFold_available]
  · rw [heq, regFold_sessions]
  · rw [heq, regFold_tts]
    simp [hn]
  · rw [heq, regFold_tts]
    simp [hn]

/-- C5 witness: registering `"t"` for session 1 and then again for session 2
leaves the mapping on the later session while both descriptors pile up. -/
theorem registration_last_write_wins_inst :
    ((connect_to_server (connect_to_server st0 ocT).1
        (ConnectOutcome.ok 2 [⟨"t", "d", "s"⟩])).1).tool_to_session "t" = some 2
    ∧ ((connect_to_server (connect_to_server st0 ocT).1
        (ConnectOutcome.ok 2 [⟨"t", "d", "s"⟩])).1).available_tools
          = (connect_to_server st0 ocT).1.available_tools
              ++ [⟨"t", "d", "s"⟩] :=
  ⟨(registration_last_write_wins (connect_to_server st0 ocT).1 2
      [⟨"t", "d", "s"⟩]).2.2.1 "t" (by decide),
   (registration_last_write_wins (connect_to_server st0 ocT).1 2
      [⟨"t", "d", "s"⟩]).1⟩

/-! ## C1 — anti-churn guard -/

/-- Closed form of the result-building loop: each request becomes either the
suppressed error block or a real invocation block, the invoker receives
exactly the non-suppressed requests in order, and the steering flag is set
iff some request was suppressed. -/
theorem buildBlocks_eq (invoke : String → String → String) (seen1 : String → Nat) :
    ∀ calls : List ToolCall,
      buildBlocks invoke seen1 calls =
        (calls.map (fun c => if shouldSuppress seen1 c then ⟨c.id, suppressText, true⟩
            else (⟨c.id, invoke c.name c.input, false⟩ : ToolResultBlock)),
         (calls.filter (fun c => !shouldSuppress seen1 c)).map (fun c => (c.name, c.input)),
         calls.any (shouldSuppress seen1))
  | [] => rfl
  | c :: rest => by
      rw [buildBlocks, buildBlocks_eq invoke seen1 rest]
      by_cases h : shouldSuppress seen1 c
      · simp [h, List.filter_cons]
      · simp [h, List.filter_cons]

/-- C1 counterexample: an oracle requesting the tool `get_drug_properties`
in each of three consecutive rounds. All three requests reach the real Tool
Invoker — the third is not suppressed — and no tool-result block of the
whole query is error-flagged, contradicting the claim that for every fixed
tool name the 3rd request within one query is suppressed. -/
theorem third_call_other_tool_reaches_invoker :
    (process_query oracleRepeatOther invoke0 [] "q").invocations
        = [("get_drug_properties", "a"), ("get_drug_properties", "a"),
           ("get_drug_properties", "a")]
    ∧ ((process_query oracleRepeatOther invoke0 [] "q").messages.all fun t =>
        match t with
        | Turn.userBlocks bs => bs.all fun b => !b.is_error
        | _ => true) = true := by
  constructor
  · rfl
  · rfl

/-- C1 (amended): only the tool name `search_drugs` is subject to
suppression — `should_suppress` is false for every other name, whose
requests therefore always reach the real Tool Invoker. Within one round the
counter is first incremented for all of the round's requests; a
`search_drugs` request is then suppressed (error-flagged block carrying the
fixed guidance text, request never passed to the invoker) iff the count of
`search_drugs` requests accumulated through the end of its round exceeds 2 —
so with one `search_drugs` request per round the 1st and 2nd execute and the
3rd and later are suppressed. The counter is created afresh at the start of
each `process_query` call and never persists across queries. -/
theorem anti_churn_only_search_drugs :
    ∀ (invoke : String → String → String) (seen : String → Nat) (calls : List ToolCall),
      buildBlocks invoke (bumpSeen seen calls) calls =
        (calls.map (fun c => if shouldSuppress (bumpSeen seen calls) c
            then ⟨c.id, suppressText, true⟩
            else (⟨c.id, invoke c.name c.input, false⟩ : ToolResultBlock)),
         (calls.filter (fun c => !shouldSuppress (bumpSeen seen calls) c)).map
            (fun c => (c.name, c.input)),
         calls.any (shouldSuppress (bumpSeen seen calls)))
      ∧ (∀ c : ToolCall, c.name ≠ "search_drugs"
          → shouldSuppress (bumpSeen seen calls) c = false)
      ∧ (∀ c : ToolCall, shouldSuppress (bumpSeen seen calls) c = true
          → c.name = "search_drugs" ∧ 2 < bumpSeen seen calls "search_drugs")
      ∧ (∀ (oracle : Nat → OracleStep) (msgs : List Turn) (q : String),
          process_query oracle invoke msgs q
            = runLoop oracle invoke MAX_TOOL_LOOPS 0 (fun _ => 0)
                (msgs ++ [Turn.user q]) []) := by
  intro invoke seen calls
  refine ⟨buildBlocks_eq invoke (bumpSeen seen calls) calls, fun c h => ?_,
    fun c h => ?_, fun _ _ _ => rfl⟩
  · simp [shouldSuppress, h]
  · simpa [shouldSuppress] using h

/-- C1 witness: with two earlier `search_drugs` calls on the counter, a
round containing one more `search_drugs` request suppresses it, while a
`get_drug_properties` request is never suppressed. -/
theorem anti_churn_only_search_drugs_inst :
    buildBlocks invoke0
        (bumpSeen (fun n => if n = "search_drugs" then 2 else 0)
          [⟨"i3", "search_drugs", "a"⟩]) [⟨"i3", "search_drugs", "a"⟩]
      = ([⟨"i3", suppressText, true⟩], [], true)
    ∧ shouldSuppress
        (bumpSeen (fun n => if n = "search_drugs" then 2 else 0)
          [⟨"i3", "search_drugs", "a"⟩]) ⟨"x", "get_drug_properties", "a"⟩ = false := by
  constructor
  · have h := (anti_churn_only_search_drugs invoke0
      (fun n => if n = "search_drugs" then 2 else 0) [⟨"i3", "search_drugs", "a"⟩]).1
    rw [h]
    rfl
  · exact (anti_churn_only_search_drugs invoke0
      (fun n => if n = "search_drugs" then 2 else 0) [⟨"i3", "search_drugs", "a"⟩]).2.1
      ⟨"x", "get_drug_properties", "a"⟩ (by decide)

/-! ## C3 — round budget -/

/-- Loop invariant for the round budget: starting an iteration with
`loopIdx + fuel = MAX_TOOL_LOOPS` and positive fuel, the loop always exits
by returning (the fuel marker is never hit), issues at most
`MAX_TOOL_LOOPS` model requests unless the forced path runs, the forced
path issues exactly one additional request, and a forced-path reply is
finalized from its text segments only. -/
theorem runLoop_bounds (oracle : Nat → OracleStep) (invoke : String → String → String) :
    ∀ (fuel loopIdx : Nat) (seen : String → Nat) (msgs : List Turn)
      (invs : List (String × String)),
      loopIdx + fuel = MAX_TOOL_LOOPS → 1 ≤ fuel →
      ((runLoop oracle invoke fuel loopIdx seen msgs invs).fuelOut = false
       ∧ (runLoop oracle invoke fuel loopIdx seen msgs invs).modelRequests
            ≤ MAX_TOOL_LOOPS + 1
       ∧ ((runLoop oracle invoke fuel loopIdx seen msgs invs).forced = true →
            (runLoop oracle invoke fuel loopIdx seen msgs invs).modelRequests
              = MAX_TOOL_LOOPS + 1)
       ∧ ((runLoop oracle invoke fuel loopIdx seen msgs invs).forced = false →
            (runLoop oracle invoke fuel loopIdx seen msgs invs).modelRequests
              ≤ MAX_TOOL_LOOPS)
       ∧ ((runLoop oracle invoke fuel loopIdx seen msgs invs).forced = true →
            ∀ r2, oracle (MAX_TOOL_LOOPS + 1) = OracleStep.reply r2 →
              (runLoop oracle invoke fuel loopIdx seen msgs invs).result
                = Except.ok (finalizeText (freeTextChunks r2.content)))) := by
  intro fuel
  induction fuel with
  | zero =>
      intro loopIdx seen msgs invs hsum hfuel
      omega
  | succ f ih =>
      intro loopIdx seen msgs invs hsum hfuel
      have hsum6 : loopIdx + (f + 1) = 6 := hsum
      cases horacle : oracle (loopIdx + 1) with
      | fail d =>
          have hstep : runLoop oracle invoke (f + 1) loopIdx seen msgs invs
              = { messages := msgs, result := Except.error d, invocations := invs,
                  modelRequests := loopIdx + 1, forced := false, fuelOut := false } := by
            simp only [runLoop, horacle]
          rw [hstep]
          refine ⟨rfl, ?_, ?_, ?_, ?_⟩
          · show loopIdx + 1 ≤ 6 + 1
            omega
          · intro h
            exact absurd h Bool.false_ne_true
          · intro _
            show loopIdx + 1 ≤ 6
            omega
          · intro h
            exact absurd h Bool.false_ne_true
      | reply resp =>
          by_cases hcalls : toolCallsOf resp.content = []
          · have hstep : runLoop oracle invoke (f + 1) loopIdx seen msgs invs
                = { messages :=
                      msgs ++ [Turn.assistant (finalizeText (freeTextChunks resp.content))],
                    result := Except.ok (finalizeText (freeTextChunks resp.content)),
                    invocations := invs, modelRequests := loopIdx + 1,
                    forced := false, fuelOut := false } := by
              simp only [runLoop, horacle]
              rw [if_pos hcalls]
            rw [hstep]
            refine ⟨rfl, ?_, ?_, ?_, ?_⟩
            · show loopIdx + 1 ≤ 6 + 1
              omega
            · intro h
              exact absurd h Bool.false_ne_true
            · intro _
              show loopIdx + 1 ≤ 6
              omega
            · intro h
              exact absurd h Bool.false_ne_true
          · by_cases hmax : MAX_TOOL_LOOPS ≤ loopIdx + 1
            · have hmax6 : 6 ≤ loopIdx + 1 := hmax
              have h7 : MAX_TOOL_LOOPS + 1 = loopIdx + 2 := by
                show 6 + 1 = loopIdx + 2
                omega
              cases horacle2 : oracle (loopIdx + 2) with
              | fail d =>
                  have hstep : runLoop oracle invoke (f + 1) loopIdx seen msgs invs
                      = { messages :=
                            ((msgs ++ [Turn.assistantBlocks resp.content,
                                Turn.userBlocks (buildBlocks invoke
                                  (bumpSeen seen (toolCallsOf resp.content))
                                  (toolCallsOf resp.content)).1])
                              ++ (if (buildBlocks invoke
                                    (bumpSeen seen (toolCallsOf resp.content))
                                    (toolCallsOf resp.content)).2.2
                                  then [Turn.user steerText] else []))
                              ++ [Turn.user forcedDirective],
                          result := Except.error d,
                          invocations := invs ++ (buildBlocks invoke
                              (bumpSeen seen (toolCallsOf resp.content))
                              (toolCallsOf resp.content)).2.1,
                          modelRequests := loopIdx + 2, forced := true,
                          fuelOut := false } := by
                    simp only [runLoop, horacle]
                    rw [if_neg hcalls, if_pos hmax, horacle2]
                  rw [hstep]
                  refine ⟨rfl, ?_, fun _ => ?_, ?_, fun _ r2 hr2 => ?_⟩
                  · show loopIdx + 2 ≤ 6 + 1
                    omega
                  · show loopIdx + 2 = 6 + 1
                    omega
                  · intro h
                    simp at h
                  · rw [h7, horacle2] at hr2
                    cases hr2
              | reply r2 =>
                  have hstep : runLoop oracle invoke (f + 1) loopIdx seen msgs invs
                      = { messages :=
                            (((msgs ++ [Turn.assistantBlocks resp.content,
                                Turn.userBlocks (buildBlocks invoke
                                  (bumpSeen seen (toolCallsOf resp.content))
                                  (toolCallsOf resp.content)).1])
                              ++ (if (buildBlocks invoke
                                    (bumpSeen seen (toolCallsOf resp.content))
                                    (toolCallsOf resp.content)).2.2
                                  then [Turn.user steerText] else []))
                              ++ [Turn.user forcedDirective])
                              ++ [Turn.assistant (finalizeText (freeTextChunks r2.content))],
                          result := Except.ok (finalizeText (freeTextChunks r2.content)),
                          invocations := invs ++ (buildBlocks invoke
                              (bumpSeen seen (toolCallsOf resp.content))
                              (toolCallsOf resp.content)).2.1,
                          modelRequests := loopIdx + 2, forced := true,
                          fuelOut := false } := by
                    simp only [runLoop, horacle]
                    rw [if_neg hcalls, if_pos hmax, horacle2]
                  rw [hstep]
                  refine ⟨rfl, ?_, fun _ => ?_, ?_, fun _ r2' hr2 => ?_⟩
                  · show loopIdx + 2 ≤ 6 + 1
                    omega
                  · show loopIdx + 2 = 6 + 1
                    omega
                  · intro h
                    simp at h
                  · rw [h7, horacle2] at hr2
                    injection hr2 with h2
                    rw [← h2]
            · have hmax6 : ¬ (6 ≤ loopIdx + 1) := hmax
              have hstep : runLoop oracle invoke (f + 1) loopIdx seen msgs invs
                  = runLoop oracle invoke f (loopIdx + 1)
                      (bumpSeen seen (toolCallsOf resp.content))
                      ((msgs ++ [Turn.assistantBlocks resp.content,
                          Turn.userBlocks (buildBlocks invoke
                            (bumpSeen seen (toolCallsOf resp.content))
                            (toolCallsOf resp.content)).1])
                        ++ (if (buildBlocks invoke
                              (bumpSeen seen (toolCallsOf resp.content))
                              (toolCallsOf resp.content)).2.2
                            then [Turn.user steerText] else []))
                      (invs ++ (buildBlocks invoke
                          (bumpSeen seen (toolCallsOf resp.content))
                          (toolCallsOf resp.content)).2.1) := by
                simp only [runLoop, horacle]
                rw [if_neg hcalls, if_neg hmax]
              rw [hstep]
              exact ih (loopIdx + 1) _ _ _ (by show loopIdx + 1 + f = 6; omega)
                (by omega)

/-- C3: for every query, the tool-call loop exits by returning (the fuel
marker of the embedding is unreachable from the canonical entry, so every
query terminates), issues at most `MAX_TOOL_LOOPS = 6` model requests
unless the forced summary path runs, the forced path issues exactly one
additional model request (total `MAX_TOOL_LOOPS + 1`), and the forced
path's reply contributes only its text segments to the final answer. -/
theorem round_budget_bound :
    ∀ (oracle : Nat → OracleStep) (invoke : String → String → String)
      (msgs : List Turn) (q : String),
      ((process_query oracle invoke msgs q).fuelOut = false
       ∧ (process_query oracle invoke msgs q).modelRequests ≤ MAX_TOOL_LOOPS + 1
       ∧ ((process_query oracle invoke msgs q).forced = true →
            (process_query oracle invoke msgs q).modelRequests = MAX_TOOL_LOOPS + 1)
       ∧ ((process_query oracle invoke msgs q).forced = false →
            (process_query oracle invoke msgs q).modelRequests ≤ MAX_TOOL_LOOPS)
       ∧ ((process_query oracle invoke msgs q).forced = true →
            ∀ r2, oracle (MAX_TOOL_LOOPS + 1) = OracleStep.reply r2 →
              (process_query oracle invoke msgs q).result
                = Except.ok (finalizeText (freeTextChunks r2.content)))) :=
  fun oracle invoke msgs q =>
    runLoop_bounds oracle invoke MAX_TOOL_LOOPS 0 (fun _ => 0)
      (msgs ++ [Turn.user q]) [] rfl (by decide)

/-- C3 witness: a churning oracle drives the loop into the forced path after
exactly 6 requests, for a total of 7; a plain-text oracle finishes in one. -/
theorem round_budget_bound_inst :
    (process_query oracleChurn invoke0 [] "q").modelRequests = MAX_TOOL_LOOPS + 1
    ∧ (process_query oracleTexty invoke0 [] "q").modelRequests ≤ MAX_TOOL_LOOPS :=
  ⟨(round_budget_bound oracleChurn invoke0 [] "q").2.2.1 (by decide),
   (round_budget_bound oracleTexty invoke0 [] "q").2.2.2.1 (by decide)⟩

/-! ## C2 — tool-result ordering protocol -/

theorem protocolOk_append :
    ∀ (xs ys : List Turn), protocolOk xs = true → protocolOk (xs ++ ys) = protocolOk ys
  | [], _, _ => rfl
  | Turn.user _ :: rest, ys, h => protocolOk_append rest ys h
  | Turn.userBlocks _ :: rest, ys, h => protocolOk_append rest ys h
  | Turn.assistant _ :: rest, ys, h => protocolOk_append rest ys h
  | [Turn.assistantBlocks c], ys, h => by
      have hc : requestIds c = [] := by simpa [protocolOk] using h
      cases ys with
      | nil => simp [protocolOk, hc]
      | cons y ys' => simp [protocolOk, hc]
  | Turn.assistantBlocks c :: next :: rest, ys, h => by
      have h' : ((if requestIds c = [] then true else pairOk c next)
          && protocolOk (next :: rest)) = true := h
      rw [Bool.and_eq_true] at h'
      show ((if requestIds c = [] then true else pairOk c next)
          && protocolOk (next :: (rest ++ ys))) = protocolOk ys
      rw [h'.1, Bool.true_and,
        show next :: (rest ++ ys) = (next :: rest) ++ ys from rfl,
        protocolOk_append (next :: rest) ys h'.2]

/-- The `tool_use_id`s of the built result blocks are exactly the requested
ids, in request order. -/
theorem resultIds_buildBlocks (invoke : String → String → String)
    (seen1 : String → Nat) (calls : List ToolCall) :
    resultIds (buildBlocks invoke seen1 calls).1 = calls.map fun c => c.id := by
  rw [buildBlocks_eq]
  simp only [resultIds, List.map_map]
  refine List.map_congr_left fun c _ => ?_
  by_cases h : shouldSuppress seen1 c
  · simp [h]
  · simp [h]

/-- The turns appended during one tool round keep the protocol invariant:
an assistant tool-request turn, then the single matching tool-result batch,
then (possibly) the steering turn. -/
theorem protocolOk_roundTurns (invoke : String → String → String)
    (seen1 : String → Nat) (content : List ContentItem)
    (hcalls : toolCallsOf content ≠ []) (steer : List Turn)
    (hsteer : protocolOk steer = true) :
    protocolOk ([Turn.assistantBlocks content,
        Turn.userBlocks (buildBlocks invoke seen1 (toolCallsOf content)).1] ++ steer)
      = true := by
  have hids : resultIds (buildBlocks invoke seen1 (toolCallsOf content)).1
      = requestIds content := by
    rw [resultIds_buildBlocks]
    rfl
  have hreq : ¬ requestIds content = [] := by
    simp only [requestIds]
    intro hcon
    exact hcalls (List.map_eq_nil_iff.mp hcon)
  show ((if requestIds content = [] then true
      else pairOk content (Turn.userBlocks (buildBlocks invoke seen1 (toolCallsOf content)).1))
      && protocolOk (Turn.userBlocks (buildBlocks invoke seen1 (toolCallsOf content)).1 :: steer))
      = true
  rw [if_neg hreq]
  show (decide (resultIds (buildBlocks invoke seen1 (toolCallsOf content)).1
      = requestIds content) && protocolOk steer) = true
  rw [hids, hsteer]
  simp

/-- The loop preserves the protocol invariant on the conversation. -/
theorem runLoop_protocolOk (oracle : Nat → OracleStep) (invoke : String → String → String) :
    ∀ (fuel loopIdx : Nat) (seen : String → Nat) (msgs : List Turn)
      (invs : List (String × String)),
      protocolOk msgs = true →
      protocolOk (runLoop oracle invoke fuel loopIdx seen msgs invs).messages = true
  | 0, _, _, _, _, h => h
  | fuel + 1, loopIdx, seen, msgs, invs, h => by
      cases horacle : oracle (loopIdx + 1) with
      | fail d =>
          have hstep : (runLoop oracle invoke (fuel + 1) loopIdx seen msgs invs).messages
              = msgs := by
            simp only [runLoop, horacle]
          rw [hstep]
          exact h
      | reply resp =>
          by_cases hcalls : toolCallsOf resp.content = []
          · have hstep : (runLoop oracle invoke (fuel + 1) loopIdx seen msgs invs).messages
                = msgs ++ [Turn.assistant (finalizeText (freeTextChunks resp.content))] := by
              simp only [runLoop, horacle]
              rw [if_pos hcalls]
            rw [hstep, protocolOk_append _ _ h]
            rfl
          · have hsteer : protocolOk (if (buildBlocks invoke
                (bumpSeen seen (toolCallsOf resp.content))
                (toolCallsOf resp.content)).2.2
                then [Turn.user steerText] else []) = true := by
              by_cases hf : (buildBlocks invoke (bumpSeen seen (toolCallsOf resp.content))
                  (toolCallsOf resp.content)).2.2
              · rw [if_pos hf]
                rfl
              · rw [if_neg hf]
                rfl
            have hround : protocolOk
                (([Turn.assistantBlocks resp.content,
                    Turn.userBlocks (buildBlocks invoke
                      (bumpSeen seen (toolCallsOf resp.content))
                      (toolCallsOf resp.content)).1])
                  ++ (if (buildBlocks invoke (bumpSeen seen (toolCallsOf resp.content))
                        (toolCallsOf resp.content)).2.2
                      then [Turn.user steerText] else [])) = true :=
              protocolOk_roundTurns invoke _ resp.content hcalls _ hsteer
            have hmsgs3 : protocolOk
                ((msgs ++ [Turn.assistantBlocks resp.content,
                    Turn.userBlocks (buildBlocks invoke
                      (bumpSeen seen (toolCallsOf resp.content))
                      (toolCallsOf resp.content)).1])
                  ++ (if (buildBlocks invoke (bumpSeen seen (toolCallsOf resp.content))
                        (toolCallsOf resp.content)).2.2
                      then [Turn.user steerText] else [])) = true := by
              rw [List.append_assoc, protocolOk_append _ _ h]
              exact hround
            by_cases hmax : MAX_TOOL_LOOPS ≤ loopIdx + 1
            · cases horacle2 : oracle (loopIdx + 2) with
              | fail d =>
                  have hstep : (runLoop oracle invoke (fuel + 1) loopIdx seen msgs invs).messages
                      = ((msgs ++ [Turn.assistantBlocks resp.content,
                          Turn.userBlocks (buildBlocks invoke
                            (bumpSeen seen (toolCallsOf resp.content))
                            (toolCallsOf resp.content)).1])
                        ++ (if (buildBlocks invoke (bumpSeen seen (toolCallsOf resp.content))
                              (toolCallsOf resp.content)).2.2
                            then [Turn.user steerText] else []))
                        ++ [Turn.user forcedDirective] := by
                    simp only [runLoop, horacle]
                    rw [if_neg hcalls, if_pos hmax, horacle2]
                  rw [hstep, protocolOk_append _ _ hmsgs3]
                  rfl
              | reply r2 =>
                  have hstep : (runLoop oracle invoke (fuel + 1) loopIdx seen msgs invs).messages
                      = (((msgs ++ [Turn.assistantBlocks resp.content,
                          Turn.userBlocks (buildBlocks invoke
                            (bumpSeen seen (toolCallsOf resp.content))
                            (toolCallsOf resp.content)).1])
                        ++ (if (buildBlocks invoke (bumpSeen seen (toolCallsOf resp.content))
                              (toolCallsOf resp.content)).2.2
                            then [Turn.user steerText] else []))
                        ++ [Turn.user forcedDirective])
                        ++ [Turn.assistant (finalizeText (freeTextChunks r2.content))] := by
                    simp only [runLoop, horacle]
                    rw [if_neg hcalls, if_pos hmax, horacle2]
                  rw [hstep, List.append_assoc, protocolOk_append _ _ hmsgs3]
                  rfl
            · have hstep : runLoop oracle invoke (fuel + 1) loopIdx seen msgs invs
                  = runLoop oracle invoke fuel (loopIdx + 1)
                      (bumpSeen seen (toolCallsOf resp.content))
                      ((msgs ++ [Turn.assistantBlocks resp.content,
                          Turn.userBlocks (buildBlocks invoke
                            (bumpSeen seen (toolCallsOf resp.content))
                            (toolCallsOf resp.content)).1])
                        ++ (if (buildBlocks invoke (bumpSeen seen (toolCallsOf resp.content))
                              (toolCallsOf resp.content)).2.2
                            then [Turn.user steerText] else []))
                      (invs ++ (buildBlocks invoke
                          (bumpSeen seen (toolCallsOf resp.content))
                          (toolCallsOf resp.content)).2.1) := by
                simp only [runLoop, horacle]
                rw [if_neg hcalls, if_neg hmax]
              rw [hstep]
              exact runLoop_protocolOk oracle invoke fuel (loopIdx + 1) _ _ _ hmsgs3

/-- C2: in every round with tool requests, the turns enter Conversation
State in protocol order — the assistant turn carrying the requests, then
immediately the single tool-result batch whose `tool_use_id`s are exactly
the requested ids in request order, with a steering turn only ever after
that batch. Formally: `process_query` preserves `protocolOk`, and the ids
of every built batch equal the round's requested ids in order. -/
theorem tool_result_protocol_preserved :
    ∀ (oracle : Nat → OracleStep) (invoke : String → String → String)
      (msgs : List Turn) (q : String),
      protocolOk msgs = true →
      (protocolOk (process_query oracle invoke msgs q).messages = true
       ∧ ∀ (seen1 : String → Nat) (calls : List ToolCall),
           resultIds (buildBlocks invoke seen1 calls).1 = calls.map fun c => c.id) := by
  intro oracle invoke msgs q h
  refine ⟨?_, fun seen1 calls => resultIds_buildBlocks invoke seen1 calls⟩
  apply runLoop_protocolOk
  rw [protocolOk_append _ _ h]
  rfl

/-- C2 witness: the protocol invariant evaluated on a full churning run
(which passes through suppression, steering, and the forced path). -/
theorem tool_result_protocol_preserved_inst :
    protocolOk (process_query oracleChurn invoke0 [] "q").messages = true :=
  (tool_result_protocol_preserved oracleChurn invoke0 [] "q" rfl).1

/-! ## Session bridge lemmas -/

/-- One non-quit step of the `run_chatbot` loop: the query is processed on
the current conversation state, its response (or caught-and-labelled error)
is put on the outbound channel, and the loop continues from the
possibly-extended conversation state. -/
theorem runEngine_cons (oracles : Nat → Nat → OracleStep)
    (invoke : String → String → String) (qIdx : Nat) (msgs : List Turn)
    (q : String) (rest : List String) (h : isQuit q = false) :
    runEngine oracles invoke qIdx msgs (q :: rest)
      = { outputs := responseOf (process_query (oracles qIdx) invoke msgs q)
            :: (runEngine oracles invoke (qIdx + 1)
                (process_query (oracles qIdx) invoke msgs q).messages rest).outputs,
          messages := (runEngine oracles invoke (qIdx + 1)
              (process_query (oracles qIdx) invoke msgs q).messages rest).messages,
          closedConnections := (runEngine oracles invoke (qIdx + 1)
              (process_query (oracles qIdx) invoke msgs q).messages rest).closedConnections } := by
  simp only [runEngine, h]
  rfl

/-- The loop only ever appends to the conversation: whatever it returns,
the messages it started from are an unchanged prefix (no rollback on any
exit path, including an oracle failure). -/
theorem runLoop_messages_extend (oracle : Nat → OracleStep)
    (invoke : String → String → String) :
    ∀ (fuel loopIdx : Nat) (seen : String → Nat) (msgs : List Turn)
      (invs : List (String × String)),
      ∃ tail, (runLoop oracle invoke fuel loopIdx seen msgs invs).messages = msgs ++ tail
  | 0, _, _, msgs, _ => ⟨[], (List.append_nil msgs).symm⟩
  | fuel + 1, loopIdx, seen, msgs, invs => by
      cases horacle : oracle (loopIdx + 1) with
      | fail d =>
          refine ⟨[], ?_⟩
          have hstep : (runLoop oracle invoke (fuel + 1) loopIdx seen msgs invs).messages
              = msgs := by
            simp only [runLoop, horacle]
          rw [hstep, List.append_nil]
      | reply resp =>
          by_cases hcalls : toolCallsOf resp.content = []
          · refine ⟨[Turn.assistant (finalizeText (freeTextChunks resp.content))], ?_⟩
            simp only [runLoop, horacle]
            rw [if_pos hcalls]
          · by_cases hmax : MAX_TOOL_LOOPS ≤ loopIdx + 1
            · cases horacle2 : oracle (loopIdx + 2) with
              | fail d =>
                  refine ⟨([Turn.assistantBlocks resp.content,
                      Turn.userBlocks (buildBlocks invoke
                        (bumpSeen seen (toolCallsOf resp.content))
                        (toolCallsOf resp.content)).1]
                    ++ (if (buildBlocks invoke (bumpSeen seen (toolCallsOf resp.content))
                          (toolCallsOf resp.content)).2.2
                        then [Turn.user steerText] else []))
                    ++ [Turn.user forcedDirective], ?_⟩
                  simp only [runLoop, horacle]
                  rw [if_neg hcalls, if_pos hmax, horacle2]
                  simp [List.append_assoc]
              | reply r2 =>
                  refine ⟨(([Turn.assistantBlocks resp.content,
                      Turn.userBlocks (buildBlocks invoke
                        (bumpSeen seen (toolCallsOf resp.content))
                        (toolCallsOf resp.content)).1]
                    ++ (if (buildBlocks invoke (bumpSeen seen (toolCallsOf resp.content))
                          (toolCallsOf resp.content)).2.2
                        then [Turn.user steerText] else []))
                    ++ [Turn.user forcedDirective])
                    ++ [Turn.assistant (finalizeText (freeTextChunks r2.content))], ?_⟩
                  simp only [runLoop, horacle]
                  rw [if_neg hcalls, if_pos hmax, horacle2]
                  simp [List.append_assoc]
            · have hstep : runLoop oracle invoke (fuel + 1) loopIdx seen msgs invs
                  = runLoop oracle invoke fuel (loopIdx + 1)
                      (bumpSeen seen (toolCallsOf resp.content))
                      ((msgs ++ [Turn.assistantBlocks resp.content,
                          Turn.userBlocks (buildBlocks invoke
                            (bumpSeen seen (toolCallsOf resp.content))
                            (toolCallsOf resp.content)).1])
                        ++ (if (buildBlocks invoke (bumpSeen seen (toolCallsOf resp.content))
                              (toolCallsOf resp.content)).2.2
                            then [Turn.user steerText] else []))
                      (invs ++ (buildBlocks invoke
                          (bumpSeen seen (toolCallsOf resp.content))
                          (toolCallsOf resp.content)).2.1) := by
                simp only [runLoop, horacle]
                rw [if_neg hcalls, if_neg hmax]
              rw [hstep]
              obtain ⟨tail, htail⟩ := runLoop_messages_extend oracle invoke fuel (loopIdx + 1)
                (bumpSeen seen (toolCallsOf resp.content))
                ((msgs ++ [Turn.assistantBlocks resp.content,
                    Turn.userBlocks (buildBlocks invoke
                      (bumpSeen seen (toolCallsOf resp.content))
                      (toolCallsOf resp.content)).1])
                  ++ (if (buildBlocks invoke (bumpSeen seen (toolCallsOf resp.content))
                        (toolCallsOf resp.content)).2.2
                      then [Turn.user steerText] else []))
                (invs ++ (buildBlocks invoke
                    (bumpSeen seen (toolCallsOf resp.content))
                    (toolCallsOf resp.content)).2.1)
              refine ⟨([Turn.assistantBlocks resp.content,
                  Turn.userBlocks (buildBlocks invoke
                    (bumpSeen seen (toolCallsOf resp.content))
                    (toolCallsOf resp.content)).1]
                ++ (if (buildBlocks invoke (bumpSeen seen (toolCallsOf resp.content))
                      (toolCallsOf resp.content)).2.2
                    then [Turn.user steerText] else [])) ++ tail, ?_⟩
              rw [htail]
              simp [List.append_assoc]

/-! ## C10 — no rollback on a mid-query oracle failure -/

/-- C10: when the model oracle raises partway through a query, the caller
receives the labelled `"[ERROR]: {detail}"` response, the turns already
appended for that query — the user turn plus everything from completed
rounds — remain in Conversation State (the state extends
`msgs ++ [user q]`, no rollback), and the engine continues the remaining
queries from exactly that partially extended state. -/
theorem no_rollback_on_oracle_failure :
    ∀ (oracles : Nat → Nat → OracleStep) (invoke : String → String → String)
      (qIdx : Nat) (msgs : List Turn) (q : String) (rest : List String) (d : String),
      isQuit q = false →
      (process_query (oracles qIdx) invoke msgs q).result = Except.error d →
      ((runEngine oracles invoke qIdx msgs (q :: rest)).outputs
          = ("[ERROR]: " ++ d)
            :: (runEngine oracles invoke (qIdx + 1)
                (process_query (oracles qIdx) invoke msgs q).messages rest).outputs)
      ∧ (∃ tail, (process_query (oracles qIdx) invoke msgs q).messages
            = (msgs ++ [Turn.user q]) ++ tail)
      ∧ ((runEngine oracles invoke qIdx msgs (q :: rest)).messages
          = (runEngine oracles invoke (qIdx + 1)
              (process_query (oracles qIdx) invoke msgs q).messages rest).messages) := by
  intro oracles invoke qIdx msgs q rest d hq herr
  have hresp : responseOf (process_query (oracles qIdx) invoke msgs q)
      = "[ERROR]: " ++ d := by
    simp only [responseOf, herr]
  rw [runEngine_cons oracles invoke qIdx msgs q rest hq]
  exact ⟨by rw [hresp], runLoop_messages_extend (oracles qIdx) invoke
    MAX_TOOL_LOOPS 0 (fun _ => 0) (msgs ++ [Turn.user q]) [], rfl⟩

/-- C10 witness: a first-query oracle failure leaves the user turn in the
state and the engine continues from it. -/
theorem no_rollback_on_oracle_failure_inst :
    (runEngine oraclesFailFirst invoke0 0 [] ["hi", "next"]).outputs
        = ("[ERROR]: " ++ "boom")
          :: (runEngine oraclesFailFirst invoke0 1
              (process_query (oraclesFailFirst 0) invoke0 [] "hi").messages
              ["next"]).outputs :=
  (no_rollback_on_oracle_failure oraclesFailFirst invoke0 0 [] "hi" ["next"] "boom"
    (by decide) rfl).1

/-! ## C8 — engine survives a model-oracle failure -/

/-- C8: a model-oracle failure while processing one query is surfaced to the
caller as the labelled failure response `"[ERROR]: {detail}"` for that query
only; the engine's execution context stays alive, accepts the next query,
and processes it normally from the retained conversation state. -/
theorem oracle_failure_engine_alive :
    ∀ (oracles : Nat → Nat → OracleStep) (invoke : String → String → String)
      (qIdx : Nat) (msgs : List Turn) (q q2 : String) (rest : List String) (d : String),
      isQuit q = false → isQuit q2 = false →
      (process_query (oracles qIdx) invoke msgs q).result = Except.error d →
      (runEngine oracles invoke qIdx msgs (q :: q2 :: rest)).outputs
        = ("[ERROR]: " ++ d)
          :: responseOf (process_query (oracles (qIdx + 1)) invoke
              (process_query (oracles qIdx) invoke msgs q).messages q2)
          :: (runEngine oracles invoke (qIdx + 2)
              (process_query (oracles (qIdx + 1)) invoke
                (process_query (oracles qIdx) invoke msgs q).messages q2).messages
              rest).outputs := by
  intro oracles invoke qIdx msgs q q2 rest d hq hq2 herr
  have hresp : responseOf (process_query (oracles qIdx) invoke msgs q)
      = "[ERROR]: " ++ d := by
    simp only [responseOf, herr]
  rw [runEngine_cons oracles invoke qIdx msgs q (q2 :: rest) hq,
    runEngine_cons oracles invoke (qIdx + 1) _ q2 rest hq2, hresp]

/-- C8 witness: after the failing first query the second query is answered
normally. -/
theorem oracle_failure_engine_alive_inst :
    (runEngine oraclesFailFirst invoke0 0 [] ["hi", "next"]).outputs
        = ("[ERROR]: " ++ "boom")
          :: responseOf (process_query (oraclesFailFirst 1) invoke0
              (process_query (oraclesFailFirst 0) invoke0 [] "hi").messages "next")
          :: (runEngine oraclesFailFirst invoke0 2
              (process_query (oraclesFailFirst 1) invoke0
                (process_query (oraclesFailFirst 0) invoke0 [] "hi").messages "next").messages
              []).outputs :=
  oracle_failure_engine_alive oraclesFailFirst invoke0 0 [] "hi" "next" [] "boom"
    (by decide) (by decide) rfl

/-! ## C9 — graceful shutdown on the quit sentinel -/

/-- C9: after any backlog of ordinary queries, submitting the sentinel
`"quit"` puts the fixed acknowledgement `"Exiting chatbot..."` on the
outbound channel as the final output and makes the loop break so that the
`finally` releases every provider connection before the context terminates;
no later inbound item is processed. Conversely, as long as no quit sentinel
has been read, the connections have not been released — the quit sentinel is
the only graceful-shutdown path. -/
theorem quit_shutdown_contract :
    ∀ (oracles : Nat → Nat → OracleStep) (invoke : String → String → String)
      (qIdx : Nat) (msgs : List Turn) (qs rest : List String),
      (∀ q ∈ qs, isQuit q = false) →
      ((runEngine oracles invoke qIdx msgs (qs ++ "quit" :: rest)).outputs
          = (runEngine oracles invoke qIdx msgs qs).outputs ++ ["Exiting chatbot..."]
       ∧ (runEngine oracles invoke qIdx msgs (qs ++ "quit" :: rest)).closedConnections = true
       ∧ (runEngine oracles invoke qIdx msgs qs).closedConnections = false) := by
  intro oracles invoke qIdx msgs qs rest
  induction qs generalizing qIdx msgs with
  | nil =>
      intro _
      have hq : isQuit "quit" = true := rfl
      refine ⟨?_, ?_, rfl⟩
      · simp [runEngine, hq]
      · simp [runEngine, hq]
  | cons q qs' ih =>
      intro h
      have hq : isQuit q = false := h q (by simp)
      obtain ⟨h1, h2, h3⟩ := ih (qIdx + 1)
        (process_query (oracles qIdx) invoke msgs q).messages
        (fun p hp => h p (by simp [hp]))
      rw [show (q :: qs') ++ "quit" :: rest = q :: (qs' ++ "quit" :: rest) from rfl,
        runEngine_cons oracles invoke qIdx msgs q (qs' ++ "quit" :: rest) hq,
        runEngine_cons oracles invoke qIdx msgs q qs' hq]
      exact ⟨by rw [h1]; rfl, h2, h3⟩

/-- C9 witness: one ordinary query followed by `"quit"`. -/
theorem quit_shutdown_contract_inst :
    (runEngine oraclesFailFirst invoke0 0 [] (["hello"] ++ "quit" :: [])).outputs
        = (runEngine oraclesFailFirst invoke0 0 [] ["hello"]).outputs
            ++ ["Exiting chatbot..."]
    ∧ (runEngine oraclesFailFirst invoke0 0 []
        (["hello"] ++ "quit" :: [])).closedConnections = true
    ∧ (runEngine oraclesFailFirst invoke0 0 [] ["hello"]).closedConnections = false :=
  quit_shutdown_contract oraclesFailFirst invoke0 0 [] ["hello"] [] (by decide)

end MedicalChat
